import Mathlib

/-!
Shallow embedding of the NFL Team Stats API (src/src/app.py).

The service exposes three read-only operations over an in-memory
collection of team records: list all teams, fetch one team by
case-insensitive name, and compare two teams by `points_scored`.
Collections are modelled as `List Team`, HTTP 404 responses as
`Except.error (ApiError.notFound detail)`.
-/

/-- The Python method `str.lower()` as applied by the service to team names
(ASCII case folding, applied character by character). -/
def pyLower (s : String) : String :=
  ⟨s.data.map Char.toLower⟩

instance {ε α : Type} [DecidableEq ε] [DecidableEq α] : DecidableEq (Except ε α) :=
  fun x y =>
    match x, y with
    | .ok a, .ok b =>
        if h : a = b then isTrue (by rw [h]) else isFalse (by simp [h])
    | .error a, .error b =>
        if h : a = b then isTrue (by rw [h]) else isFalse (by simp [h])
    | .ok _, .error _ => isFalse (by simp)
    | .error _, .ok _ => isFalse (by simp)

/-- A team record as stored in the backing JSON: the `name` and
`points_scored` fields the service reads, plus opaque pass-through
fields (`extra`) that the service never interprets. -/
structure Team where
  name : String
  points_scored : Int
  extra : List (String × String) := []
deriving DecidableEq, Repr

/-- The only error kind of the service: an HTTP 404 carrying a static
detail message (`HTTPException(status_code=404, detail=...)`). -/
inductive ApiError where
  | notFound (detail : String)
deriving DecidableEq, Repr

/-- `GET /teams` (app.py lines 22-24): returns the loaded collection. -/
def get_teams (teams : List Team) : List Team :=
  teams

/-- `GET /team/{team_name}` (app.py lines 27-33): scans the collection in
order and returns the first team whose name matches the query
case-insensitively; raises 404 "Team not found" when no team matches. -/
def get_team (teams : List Team) (team_name : String) : Except ApiError Team :=
  match teams with
  | [] => .error (.notFound "Team not found")
  | t :: rest =>
      if pyLower t.name = pyLower team_name then .ok t
      else get_team rest team_name

/-- The local `find` closure inside `compare_teams` (app.py lines 40-44):
first case-insensitive match, or `None`. -/
def compare_teams.find (teams : List Team) (name : String) : Option Team :=
  match teams with
  | [] => none
  | t :: rest =>
      if pyLower t.name = pyLower name then some t
      else compare_teams.find rest name

/-- The JSON object returned by a successful `GET /compare/{a}/{b}`. -/
structure ComparisonResult where
  team_a : Team
  team_b : Team
  higher_scoring_team : String
deriving DecidableEq, Repr

/-- `GET /compare/{team_a}/{team_b}` (app.py lines 36-65): resolves both
names via `find`; 404 "One or both teams not found" if either fails;
otherwise the name-equality check precedes the score comparison. -/
def compare_teams (teams : List Team) (team_a team_b : String) :
    Except ApiError ComparisonResult :=
  match compare_teams.find teams team_a, compare_teams.find teams team_b with
  | some a, some b =>
      let higher : String :=
        if pyLower a.name = pyLower b.name then "same team"
        else if a.points_scored > b.points_scored then a.name
        else if a.points_scored < b.points_scored then b.name
        else "tie"
      .ok { team_a := a, team_b := b, higher_scoring_team := higher }
  | _, _ => .error (.notFound "One or both teams not found")

/-- Concrete team from the concrete scenario of the spec: `{"name":"Eagles","points_scored":30}`. -/
def eaglesT : Team :=
  { name := "Eagles", points_scored := 30 }

/-- Concrete team from the concrete scenario of the spec: `{"name":"Cowboys","points_scored":24}`. -/
def cowboysT : Team :=
  { name := "Cowboys", points_scored := 24 }

/-- The concrete scenario collection from the spec. -/
def demoTeams : List Team :=
  [eaglesT, cowboysT]

example : get_team demoTeams "eagles" = .ok eaglesT := by rfl
example : get_team demoTeams "Raiders" = .error (.notFound "Team not found") := by rfl
example : (compare_teams demoTeams "Eagles" "cowboys").map (·.higher_scoring_team)
    = .ok "Eagles" := by rfl
example : (compare_teams demoTeams "Eagles" "Eagles").map (·.higher_scoring_team)
    = .ok "same team" := by rfl
example : compare_teams demoTeams "Eagles" "Raiders"
    = .error (.notFound "One or both teams not found") := by rfl

/-! ### Helper lemmas about the two lookup loops -/

/-- A successful `find` returns a stored record whose name matches the query. -/
theorem find_mem_of_eq_some {ts : List Team} {n : String} {t : Team}
    (h : compare_teams.find ts n = some t) :
    t ∈ ts ∧ pyLower t.name = pyLower n := by
  induction ts with
  | nil => simp [compare_teams.find] at h
  | cons s rest ih =>
      rw [compare_teams.find] at h
      by_cases hs : pyLower s.name = pyLower n
      · rw [if_pos hs] at h
        cases h
        exact ⟨List.mem_cons_self _ _, hs⟩
      · rw [if_neg hs] at h
        obtain ⟨hmem, hname⟩ := ih h
        exact ⟨List.mem_cons_of_mem _ hmem, hname⟩

/-- `find` returns `none` exactly when no stored name matches the query. -/
theorem find_eq_none_iff {ts : List Team} {n : String} :
    compare_teams.find ts n = none ↔ ¬ ∃ t ∈ ts, pyLower t.name = pyLower n := by
  induction ts with
  | nil => simp [compare_teams.find]
  | cons s rest ih =>
      rw [compare_teams.find]
      by_cases hs : pyLower s.name = pyLower n
      · simp [hs]
      · simp [hs, ih]

/-- The inner `find` succeeds with `t` exactly when `get_team` returns `t`. -/
theorem find_eq_some_iff_get_team {ts : List Team} {n : String} {t : Team} :
    compare_teams.find ts n = some t ↔ get_team ts n = .ok t := by
  induction ts with
  | nil => simp [compare_teams.find, get_team]
  | cons s rest ih =>
      rw [compare_teams.find, get_team]
      by_cases hs : pyLower s.name = pyLower n
      · simp [hs]
      · simp [hs, ih]

/-- The inner `find` fails exactly when `get_team` raises 404. -/
theorem find_eq_none_iff_get_team {ts : List Team} {n : String} :
    compare_teams.find ts n = none ↔
      get_team ts n = .error (.notFound "Team not found") := by
  induction ts with
  | nil => simp [compare_teams.find, get_team]
  | cons s rest ih =>
      rw [compare_teams.find, get_team]
      by_cases hs : pyLower s.name = pyLower n
      · simp [hs]
      · simp [hs, ih]

/-! ### Claim theorems -/

/-- C1: whenever both query names resolve (via the case-insensitive
lookup) to teams whose stored names are equal case-insensitively,
`compare_teams` succeeds with `higher_scoring_team = "same team"`,
regardless of the scores of the two teams: the name-equality check takes
precedence over any score comparison. -/
theorem compare_teams_same_name_sentinel
    (ts : List Team) (A B : String) (a b : Team)
    (ha : compare_teams.find ts A = some a)
    (hb : compare_teams.find ts B = some b)
    (hname : pyLower a.name = pyLower b.name) :
    compare_teams ts A B =
      .ok { team_a := a, team_b := b, higher_scoring_team := "same team" } := by
  unfold compare_teams
  rw [ha, hb]
  simp [hname]

/-- C1 witness: comparing "Eagles" with "EAGLES" on the demo collection. -/
theorem compare_teams_same_name_sentinel_witness :
    compare_teams demoTeams "Eagles" "EAGLES" =
      .ok { team_a := eaglesT, team_b := eaglesT, higher_scoring_team := "same team" } :=
  compare_teams_same_name_sentinel demoTeams "Eagles" "EAGLES" eaglesT eaglesT
    rfl rfl rfl

/-- C2: when both names resolve to teams whose stored names differ
case-insensitively, `higher_scoring_team` is the stored name (original
casing) of the strictly higher scorer, and the sentinel "tie" when the
scores are equal. -/
theorem compare_teams_score_comparison
    (ts : List Team) (A B : String) (a b : Team)
    (ha : compare_teams.find ts A = some a)
    (hb : compare_teams.find ts B = some b)
    (hname : pyLower a.name ≠ pyLower b.name) :
    (a.points_scored > b.points_scored →
      compare_teams ts A B =
        .ok { team_a := a, team_b := b, higher_scoring_team := a.name }) ∧
    (a.points_scored < b.points_scored →
      compare_teams ts A B =
        .ok { team_a := a, team_b := b, higher_scoring_team := b.name }) ∧
    (a.points_scored = b.points_scored →
      compare_teams ts A B =
        .ok { team_a := a, team_b := b, higher_scoring_team := "tie" }) := by
  unfold compare_teams
  rw [ha, hb]
  refine ⟨fun h => ?_, fun h => ?_, fun h => ?_⟩
  · simp only [if_neg hname, if_pos h]
  · simp only [if_neg hname,
      if_neg (by omega : ¬ a.points_scored > b.points_scored), if_pos h]
  · simp only [if_neg hname,
      if_neg (by omega : ¬ a.points_scored > b.points_scored),
      if_neg (by omega : ¬ a.points_scored < b.points_scored)]

/-- C2 witness: Eagles (30) strictly outscore Cowboys (24). -/
theorem compare_teams_score_comparison_witness :
    compare_teams demoTeams "Eagles" "cowboys" =
      .ok { team_a := eaglesT, team_b := cowboysT, higher_scoring_team := "Eagles" } :=
  (compare_teams_score_comparison demoTeams "Eagles" "cowboys" eaglesT cowboysT
    rfl rfl (by decide)).1 (by decide)

/-- C3: the lookup scans in collection order and returns the first
case-insensitive match: for any decomposition of the collection into a
non-matching prefix, a matching team `t`, and an arbitrary suffix,
`get_team` returns `t`. In particular, among several teams sharing a
case-insensitively equal name, the earliest in collection order wins. -/
theorem get_team_first_match
    (pre : List Team) (t : Team) (post : List Team) (q : String)
    (ht : pyLower t.name = pyLower q)
    (hpre : ∀ s ∈ pre, pyLower s.name ≠ pyLower q) :
    get_team (pre ++ t :: post) q = .ok t := by
  induction pre with
  | nil => simp [get_team, ht]
  | cons s rest ih =>
      have hs : pyLower s.name ≠ pyLower q := hpre s (List.mem_cons_self _ _)
      rw [List.cons_append, get_team, if_neg hs]
      exact ih fun x hx => hpre x (List.mem_cons_of_mem _ hx)

/-- A duplicate record carrying the same name (different case) as the
demo Eagles but a different score, placed after it. -/
def eaglesDup : Team :=
  { name := "EAGLES", points_scored := 10 }

/-- C3 witness: with a non-matching team first and a duplicate last,
the lookup returns the middle (earliest matching) record. -/
theorem get_team_first_match_witness :
    get_team [cowboysT, eaglesT, eaglesDup] "eagles" = .ok eaglesT :=
  get_team_first_match [cowboysT] eaglesT [eaglesDup] "eagles"
    (by decide) (by decide)

/-- A collection holding two distinct records with case-insensitively
equal names, refuting C4 as universally stated. -/
def dupTeams : List Team :=
  [eaglesT, eaglesDup]

/-- C4 counterexample: it is not true that for every collection, every
stored team `T` and every query equal to `T.name` case-insensitively the
lookup returns `T`: with the duplicate collection, querying the second
own name of the second record returns the first record instead. -/
theorem get_team_returns_queried_team_cex :
    ¬ (∀ (ts : List Team), ∀ T ∈ ts, ∀ q : String,
        pyLower q = pyLower T.name → get_team ts q = .ok T) := by
  intro h
  have := h dupTeams eaglesDup (by decide) "EAGLES" (by decide)
  have hne : get_team dupTeams "EAGLES" = .ok eaglesT := by decide
  rw [hne] at this
  exact absurd this (by decide)

/-- C4 amended: for every collection whose stored names are pairwise
distinct case-insensitively, and every team `T` stored in it,
`get_team` returns `T` for every query equal to `T.name` under
case-insensitive comparison, regardless of the letter case of the query. -/
theorem get_team_returns_queried_team
    (ts : List Team)
    (hu : ts.Pairwise fun s t => pyLower s.name ≠ pyLower t.name)
    (T : Team) (hT : T ∈ ts) (q : String)
    (hq : pyLower q = pyLower T.name) :
    get_team ts q = .ok T := by
  induction ts with
  | nil => cases hT
  | cons s rest ih =>
      rw [get_team]
      rcases List.mem_cons.mp hT with hTs | hTrest
      · subst hTs
        rw [if_pos hq.symm]
      · have hs : pyLower s.name ≠ pyLower q := by
          intro hsq
          exact (List.pairwise_cons.mp hu).1 T hTrest (hsq.trans hq)
        rw [if_neg hs]
        exact ih (List.pairwise_cons.mp hu).2 hTrest

/-- C4 amended witness: on the demo collection (names pairwise distinct),
a lower-case query for "Eagles" returns the Eagles record. -/
theorem get_team_returns_queried_team_witness :
    get_team demoTeams "eagles" = .ok eaglesT :=
  get_team_returns_queried_team demoTeams (by decide) eaglesT (by decide)
    "eagles" (by decide)

/-- C5: `compare_teams` fails with 404 "One or both teams not found"
exactly when at least one of the two query names has no case-insensitive
match in the collection; on failure no comparison result is produced
(the `Except` carries only the error). -/
theorem compare_teams_not_found_iff (ts : List Team) (A B : String) :
    compare_teams ts A B = .error (.notFound "One or both teams not found") ↔
      (¬ ∃ t ∈ ts, pyLower t.name = pyLower A) ∨
      (¬ ∃ t ∈ ts, pyLower t.name = pyLower B) := by
  unfold compare_teams
  cases hA : compare_teams.find ts A with
  | none =>
      simp only []
      constructor
      · intro _
        exact Or.inl (find_eq_none_iff.mp hA)
      · intro _
        cases compare_teams.find ts B <;> trivial
  | some a =>
      cases hB : compare_teams.find ts B with
      | none =>
          simp only []
          exact ⟨fun _ => Or.inr (find_eq_none_iff.mp hB), fun _ => trivial⟩
      | some b =>
          simp only []
          constructor
          · intro h
            exact absurd h (by simp)
          · intro h
            rcases h with h | h
            · exact absurd hA (by rw [find_eq_none_iff.mpr h]; simp)
            · exact absurd hB (by rw [find_eq_none_iff.mpr h]; simp)

/-- C6: `get_team` fails with 404 "Team not found" exactly when no team
in the collection has a stored name equal to the query under
case-insensitive comparison. -/
theorem get_team_not_found_iff (ts : List Team) (q : String) :
    get_team ts q = .error (.notFound "Team not found") ↔
      ¬ ∃ t ∈ ts, pyLower t.name = pyLower q := by
  rw [← find_eq_none_iff_get_team, find_eq_none_iff]

/-- C7: `get_teams` returns exactly the loaded collection: the same
records, each exactly once, in the original order, nothing added,
dropped, reordered, or modified. -/
theorem get_teams_returns_collection (ts : List Team) :
    get_teams ts = ts :=
  rfl

/-- C8: the `find` closure used inside `compare_teams` is equivalent to
the `get_team` scan: it returns a team exactly when `get_team` returns
that same record, and it returns `none` exactly when `get_team` raises
404 "Team not found". -/
theorem find_equiv_get_team (ts : List Team) (q : String) :
    (∀ t : Team, compare_teams.find ts q = some t ↔ get_team ts q = .ok t) ∧
    (compare_teams.find ts q = none ↔
      get_team ts q = .error (.notFound "Team not found")) :=
  ⟨fun _ => find_eq_some_iff_get_team, find_eq_none_iff_get_team⟩

/-! ### Pass-through of unread fields -/

/-- Rewrite the pass-through fields of a record, leaving `name` and
`points_scored` untouched. -/
def setExtra (f : Team → List (String × String)) (t : Team) : Team :=
  { t with extra := f t }

/-- The inner `find` commutes with rewriting pass-through fields. -/
theorem find_map_setExtra (f : Team → List (String × String))
    (ts : List Team) (n : String) :
    compare_teams.find (ts.map (setExtra f)) n =
      (compare_teams.find ts n).map (setExtra f) := by
  induction ts with
  | nil => simp [compare_teams.find]
  | cons s rest ih =>
      rw [List.map_cons, compare_teams.find, compare_teams.find]
      by_cases hs : pyLower s.name = pyLower n
      · simp [setExtra, hs]
      · simp only [setExtra, hs, if_neg, ite_false]
        exact ih

/-- `get_team` commutes with rewriting pass-through fields. -/
theorem get_team_map_setExtra (f : Team → List (String × String))
    (ts : List Team) (n : String) :
    get_team (ts.map (setExtra f)) n = (get_team ts n).map (setExtra f) := by
  induction ts with
  | nil => simp [get_team, Except.map]
  | cons s rest ih =>
      rw [List.map_cons, get_team, get_team]
      by_cases hs : pyLower s.name = pyLower n
      · simp [setExtra, hs, Except.map]
      · simp only [setExtra, hs, if_neg, ite_false]
        exact ih

/-- C9: the service reads only `name` and `points_scored` and passes
every other field through untouched: rewriting the pass-through fields
of every stored record commutes with all three operations, and the
`higher_scoring_team` outcome is unchanged. -/
theorem extra_fields_passed_through (f : Team → List (String × String))
    (ts : List Team) (q A B : String) :
    get_teams (ts.map (setExtra f)) = (get_teams ts).map (setExtra f) ∧
    get_team (ts.map (setExtra f)) q = (get_team ts q).map (setExtra f) ∧
    compare_teams (ts.map (setExtra f)) A B =
      (compare_teams ts A B).map fun r =>
        { team_a := setExtra f r.team_a, team_b := setExtra f r.team_b,
          higher_scoring_team := r.higher_scoring_team } := by
  refine ⟨rfl, get_team_map_setExtra f ts q, ?_⟩
  unfold compare_teams
  rw [find_map_setExtra, find_map_setExtra]
  cases compare_teams.find ts A with
  | none => cases compare_teams.find ts B <;> rfl
  | some a =>
      cases compare_teams.find ts B with
      | none => rfl
      | some b => simp [setExtra, Except.map]

/-- C10: swapping the two query names either fails identically or
succeeds with the same `higher_scoring_team`, exchanging only the
`team_a`/`team_b` fields. -/
theorem compare_teams_swap (ts : List Team) (A B : String) :
    compare_teams ts B A =
      (compare_teams ts A B).map fun r =>
        { team_a := r.team_b, team_b := r.team_a,
          higher_scoring_team := r.higher_scoring_team } := by
  unfold compare_teams
  cases compare_teams.find ts A with
  | none => cases compare_teams.find ts B <;> rfl
  | some a =>
      cases compare_teams.find ts B with
      | none => rfl
      | some b =>
          simp only [Except.map]
          by_cases hn : pyLower a.name = pyLower b.name
          · simp only [if_pos hn,
              if_pos (show pyLower b.name = pyLower a.name from hn.symm)]
          · have hn2 : pyLower b.name ≠ pyLower a.name := fun h => hn h.symm
            rcases lt_trichotomy a.points_scored b.points_scored with h | h | h
            · simp only [if_neg hn, if_neg hn2,
                if_pos (show b.points_scored > a.points_scored from h),
                if_neg (show ¬ a.points_scored > b.points_scored by omega),
                if_pos h]
            · simp only [if_neg hn, if_neg hn2,
                if_neg (show ¬ b.points_scored > a.points_scored by omega),
                if_neg (show ¬ b.points_scored < a.points_scored by omega),
                if_neg (show ¬ a.points_scored > b.points_scored by omega),
                if_neg (show ¬ a.points_scored < b.points_scored by omega)]
            · simp only [if_neg hn, if_neg hn2,
                if_neg (show ¬ b.points_scored > a.points_scored by omega),
                if_pos (show b.points_scored < a.points_scored from h),
                if_pos (show a.points_scored > b.points_scored from h)]
